import Mathlib

/-!
Verification of the BreezeAPI routing and middleware core.

This file gives a shallow embedding, in Lean 4, of the request-routing and
middleware-execution engine of the BreezeAPI framework:

* the static-first path trie of `src/core/api-router.ts` (`insertRoute`,
  `resolve`),
* the route-module loading logic of `ApiRouter.loadRouteModule`
  (handler-map construction from `HTTP_METHODS`, guard/middleware
  combination),
* the per-request pipeline composition of `BreezeAPI._createApiHandler`
  (route-middleware source selection, validation wrapping, global
  middleware wrapping, 404/405 dispatch, SSE gating),
* the validation middleware of `src/middleware/validator.ts`,
* the specificity-sorted page router of `src/core/page-router.ts`
  (`getRouteSpecificity`, `compareRoutes`, `matchRoute`, `resolve`),
* the WebSocket group router (`ws-router.ts` `matchRoute`, group
  add/remove/broadcast) and the upgrade path of `Server.startSocket`.

Paths travel as `String`s exactly as in the source; the split on `/` with
removal of empty segments (`path.split('/').filter(Boolean)`) is embedded
as `splitSegs`, written by structural recursion over the character list so
that concrete computations reduce in the kernel.  Effects are made
observable by threading an explicit event trace through the middleware
chain; middleware functions are continuation-passing exactly like the
`(req, res, next)` closures of the source.
-/

/-! ## Association-list helpers (JS `Map` / plain-object semantics) -/

/-- Lookup in an insertion-ordered association list (first match; keys are
unique by construction wherever we use it, mirroring `Map.get`). -/
def lookupAssoc {α : Type} (l : List (String × α)) (k : String) : Option α :=
  match l with
  | [] => none
  | (k', v) :: rest => if k' = k then some v else lookupAssoc rest k

/-- Overwrite-or-append update, mirroring `Map.set` / `obj[k] = v`:
an existing key is updated in place (insertion order kept), a new key is
appended at the end. -/
def setAssoc {α : Type} (l : List (String × α)) (k : String) (v : α) :
    List (String × α) :=
  match l with
  | [] => [(k, v)]
  | (k', v') :: rest =>
    if k' = k then (k, v) :: rest else (k', v') :: setAssoc rest k v

/-! ## String helpers

The source manipulates URL paths with `split('/')`, `filter(Boolean)`,
`replace(/\/+/g, '/')`, `startsWith(':')`, `slice(1)`, `toUpperCase()` and
`toLowerCase()`.  Each is embedded below by structural recursion on
`String.data`. -/

/-- Accumulator-style splitter: `splitSegsAux cur cs` splits `cs` at `/`,
dropping empty segments, with `cur` the (reversed) pending segment.
Together with `splitSegs` this embeds `path.split('/').filter(Boolean)`. -/
def splitSegsAux (cur : List Char) : List Char → List String
  | [] => if cur.isEmpty then [] else [String.mk cur.reverse]
  | c :: rest =>
    if c = '/' then
      if cur.isEmpty then splitSegsAux [] rest
      else String.mk cur.reverse :: splitSegsAux [] rest
    else splitSegsAux (c :: cur) rest

/-- Embedding of `path.split('/').filter(Boolean)`. -/
def splitSegs (s : String) : List String :=
  splitSegsAux [] s.data

/-- Splitter without the empty-segment filter, embedding the bare
`path.split('/')` used by the WebSocket router. -/
def splitAllAux (cur : List Char) : List Char → List String
  | [] => [String.mk cur.reverse]
  | c :: rest =>
    if c = '/' then String.mk cur.reverse :: splitAllAux [] rest
    else splitAllAux (c :: cur) rest

/-- Embedding of the bare `path.split('/')`. -/
def splitAll (s : String) : List String :=
  splitAllAux [] s.data

/-- Collapse runs of `/` to a single `/` (the `replace(/\/+/g, '/')` step of
`normalizePath` in `utils`), carrying the previous character. -/
def collapseSlashesAux (prev : Option Char) : List Char → List Char
  | [] => []
  | c :: rest =>
    if c = '/' ∧ prev = some '/' then collapseSlashesAux prev rest
    else c :: collapseSlashesAux (some c) rest

/-- Embedding of `normalizePath` from `src/utils`: collapse repeated
slashes, then strip a trailing slash unless the path is the root. -/
def normalizePath (path : String) : String :=
  let normalized := String.mk (collapseSlashesAux none path.data)
  if normalized.data.length > 1 ∧ normalized.data.getLast? = some '/' then
    String.mk normalized.data.dropLast
  else normalized

/-- ASCII uppercase of one character, mirroring `toUpperCase()` on the
method strings used by the router. -/
def asciiUpperChar (c : Char) : Char :=
  if 'a' ≤ c ∧ c ≤ 'z' then Char.ofNat (c.toNat - 32) else c

/-- ASCII lowercase of one character, mirroring `toLowerCase()`. -/
def asciiLowerChar (c : Char) : Char :=
  if 'A' ≤ c ∧ c ≤ 'Z' then Char.ofNat (c.toNat + 32) else c

/-- Embedding of `method.toUpperCase()` (HTTP method names are ASCII). -/
def asciiUpper (s : String) : String :=
  String.mk (s.data.map asciiUpperChar)

/-- Embedding of `method.toLowerCase()`. -/
def asciiLower (s : String) : String :=
  String.mk (s.data.map asciiLowerChar)

/-- Test for a dynamic path segment, embedding `segment.startsWith(':')`. -/
def isDynamicSeg (s : String) : Bool :=
  match s.data with
  | ':' :: _ => true
  | _ => false

/-- Parameter name of a dynamic segment, embedding `segment.slice(1)`. -/
def paramNameOf (s : String) : String :=
  String.mk s.data.tail

/-- Check whether `pat` occurs as a prefix of `l` (character lists). -/
def listStartsWith : List Char → List Char → Bool
  | [], _ => true
  | _ :: _, [] => false
  | p :: ps, c :: cs => p = c ∧ listStartsWith ps cs

/-- Check whether `pat` occurs somewhere inside `l`, embedding the
JavaScript `String.includes`. -/
def listHasSub (pat : List Char) : List Char → Bool
  | [] => listStartsWith pat []
  | c :: rest => listStartsWith pat (c :: rest) || listHasSub pat rest

/-- Embedding of `s.includes(pat)`. -/
def strIncludes (s pat : String) : Bool :=
  listHasSub pat.data s.data

/-! ## The URL boundary

`resolve` calls `new URL(request.url)` inside a `try` block; the platform
`URL` constructor throws on a relative or malformed URL.  We model that
external boundary with a parser that succeeds exactly on an absolute
`http://` or `https://` URL with a nonempty host, yielding the pathname
(query string and fragment cut off, `/` when the path part is empty). -/

/-- Split the part after the scheme into host and pathname; stop the
pathname at `?` or `#`. -/
def urlHostPathAux (host : List Char) : List Char → Option (List Char × List Char)
  | [] => if host.isEmpty then none else some (host, ['/'])
  | c :: rest =>
    if c = '/' then
      if host.isEmpty then none
      else some (host, '/' :: rest.takeWhile (fun d => d ≠ '?' ∧ d ≠ '#'))
    else if c = '?' ∨ c = '#' then
      if host.isEmpty then none else some (host, ['/'])
    else urlHostPathAux (host ++ [c]) rest

/-- Model of the `new URL(u).pathname` boundary: `some pathname` when the
constructor would succeed, `none` when it would throw. -/
def parseUrlPathname (u : String) : Option String :=
  if listStartsWith "http://".data u.data then
    (urlHostPathAux [] (u.data.drop 7)).map (fun p => String.mk p.2)
  else if listStartsWith "https://".data u.data then
    (urlHostPathAux [] (u.data.drop 8)).map (fun p => String.mk p.2)
  else none

/-! ## Data model: routes and the trie (`src/core/api-router.ts`)

`RouteDefinition` in the source carries `path`, `handlers`, `middleware`,
`schema`, `openapi`, `config`.  The trie and dispatch decisions depend
only on the path and on *which* method names have handler functions; the
behavioural parts (middleware, schema, handlers) are modelled separately
by the pipeline section, keyed by the route id `rid`. -/

/-- Routing-relevant projection of a `RouteDefinition`:  `methods` is the
set of keys of the `handlers` map built by `loadRouteModule`. -/
structure RouteDefinition where
  rid : Nat
  path : String
  methods : List String
deriving DecidableEq, Repr

/-- Embedding of the `TrieNode` interface: insertion-ordered static
children, at most one dynamic child carrying its `paramName`, and an
optional terminal route. -/
inductive TrieNode where
  | mk (children : List (String × TrieNode)) (paramChild : Option TrieNode)
      (paramName : Option String) (route : Option RouteDefinition)

/-- Static children of a node. -/
def TrieNode.children : TrieNode → List (String × TrieNode)
  | .mk c _ _ _ => c

/-- Dynamic child of a node. -/
def TrieNode.paramChild : TrieNode → Option TrieNode
  | .mk _ p _ _ => p

/-- Captured parameter name (set on the dynamic child itself, as in the
source where `node.paramName` is assigned after `node = node.paramChild`). -/
def TrieNode.paramName : TrieNode → Option String
  | .mk _ _ n _ => n

/-- Terminal route of a node. -/
def TrieNode.route : TrieNode → Option RouteDefinition
  | .mk _ _ _ r => r

/-- Fresh node, embedding `{ children: new Map() }`. -/
def emptyNode : TrieNode := .mk [] none none none

/-- Replace the `paramName` field of a node (the assignment
`node.paramName = segment.slice(1)` of `insertRoute`). -/
def TrieNode.withParamName : TrieNode → String → TrieNode
  | .mk c p _ r, n => .mk c p (some n) r

/-- Segment-level core of `ApiRouter.insertRoute`: walk/create trie nodes
for each segment; a `:`-segment creates or reuses the single dynamic
child and (re)assigns its `paramName`; a literal segment creates or
reuses the static child of that exact text.  The terminal node receives
the route (silent overwrite, last write wins). -/
def insertSegs : TrieNode → List String → RouteDefinition → TrieNode
  | .mk cs pc pn _, [], r => .mk cs pc pn (some r)
  | .mk cs pc pn rt, seg :: rest, r =>
    if isDynamicSeg seg then
      let child := (pc.getD emptyNode).withParamName (paramNameOf seg)
      .mk cs (some (insertSegs child rest r)) pn rt
    else
      let child := (lookupAssoc cs seg).getD emptyNode
      .mk (setAssoc cs seg (insertSegs child rest r)) pc pn rt

/-- Embedding of `ApiRouter.insertRoute`: split the route path and walk
the trie (`routeDef.path.split('/').filter(Boolean)`). -/
def insertRoute (t : TrieNode) (r : RouteDefinition) : TrieNode :=
  insertSegs t (splitSegs r.path) r

/-- Segment walk of `ApiRouter.resolve`: prefer the exact static child,
fall back to the dynamic child capturing `params[paramName] = segment`,
fail immediately when neither exists. -/
def walkTrie : TrieNode → List String → List (String × String) →
    Option (TrieNode × List (String × String))
  | n, [], ps => some (n, ps)
  | n, seg :: rest, ps =>
    match lookupAssoc n.children seg with
    | some c => walkTrie c rest ps
    | none =>
      match n.paramChild with
      | some c => walkTrie c rest (setAssoc ps (c.paramName.getD "") seg)
      | none => none

/-- Result type of `ApiRouter.resolve`: optional route plus captured
params; every failure path returns `{ params: {} }`. -/
structure ResolveResult where
  route : Option RouteDefinition
  params : List (String × String)
deriving DecidableEq, Repr

/-- Segment-level tail of `ApiRouter.resolve`: walk the segments, then
require both a terminal route and a handler for the (uppercased) method —
otherwise the same empty result as a path miss. -/
def resolveSegs (t : TrieNode) (segs : List String) (method : String) :
    ResolveResult :=
  match walkTrie t segs [] with
  | none => ⟨none, []⟩
  | some (n, ps) =>
    match n.route with
    | some r => if r.methods.contains method then ⟨some r, ps⟩ else ⟨none, []⟩
    | none => ⟨none, []⟩

/-- Request as `resolve` sees it: `request.url` and `request.method`. -/
structure ReqIn where
  url : String
  method : String
deriving DecidableEq, Repr

/-- Embedding of `ApiRouter.resolve`:  parse the URL (the `try` / `catch`
returning `{ params: {} }` on a throwing `new URL`), normalize the
pathname, uppercase the method, split into segments and walk the trie.
The trie is only read, never written: the function returns a
`ResolveResult` and leaves its `TrieNode` argument untouched by
construction. -/
def apiResolve (t : TrieNode) (req : ReqIn) : ResolveResult :=
  match parseUrlPathname req.url with
  | none => ⟨none, []⟩
  | some pathname =>
    resolveSegs t (splitSegs (normalizePath pathname)) (asciiUpper req.method)

/-- Occurrence of a route somewhere in a trie, used to state that
`resolve` can only ever answer with a route that is stored in the trie. -/
inductive RouteIn (r : RouteDefinition) : TrieNode → Prop
  | here (t : TrieNode) : t.route = some r → RouteIn r t
  | staticChild (t : TrieNode) (s : String) (c : TrieNode) :
      (s, c) ∈ t.children → RouteIn r c → RouteIn r t
  | dynChild (t : TrieNode) (c : TrieNode) :
      t.paramChild = some c → RouteIn r c → RouteIn r t

/-! ## Route-module loading (`ApiRouter.loadRouteModule`) -/

/-- The supported HTTP methods, from `src/utils/routing.ts`. -/
def HTTP_METHODS : List String :=
  ["GET", "POST", "PUT", "DELETE", "PATCH", "HEAD", "OPTIONS"]

/-- Handler-map keys built by `loadRouteModule`: only members of
`HTTP_METHODS` that the route module exports as functions are copied into
`handlers` (an exported `SSE`/`sse` function is *not* among them). -/
def loadHandlers (exports : List String) : List String :=
  HTTP_METHODS.filter (fun m => exports.contains m)

/-! ## Dispatch decisions of `BreezeAPI._createApiHandler` (index.ts) -/

/-- Outcome of the dispatch prefix of `_createApiHandler`, up to the point
where the middleware chain would be composed and executed:  either an
immediate `Response`, or the chain runs for a resolved route (`sse` tells
whether the SSE execution path was selected for it). -/
inductive DispatchOutcome where
  | response (status : Nat) (errorMsg : Option String)
  | chain (rid : Nat) (params : List (String × String)) (sse : Bool)
deriving DecidableEq, Repr

/-- Embedding of the dispatch prefix of `_createApiHandler`:  URL parse
(`catch` gives the 500 error boundary), the `/openapi.json` and `/docs`
short-circuits, `resolve`, the 404 on a missing route, the SSE gate
(`method === 'GET'` and an `SSE`/`sse` entry in the handler map), and the
405 on a missing handler. -/
def apiHandlerDispatch (t : TrieNode) (req : ReqIn) : DispatchOutcome :=
  match parseUrlPathname req.url with
  | none => .response 500 none
  | some pathname =>
    if pathname = "/openapi.json" then .response 200 none
    else if pathname = "/docs" then .response 200 none
    else
      match apiResolve t req with
      | ⟨none, _⟩ => .response 404 (some "Route not found")
      | ⟨some route, params⟩ =>
        let method := asciiUpper req.method
        let isSSE := method = "GET" ∧
          (route.methods.contains "SSE" ∨ route.methods.contains "sse")
        let hasHandler := route.methods.contains method ∨ isSSE
        if hasHandler then .chain route.rid params (decide isSSE)
        else .response 405 (some "Method Not Allowed")

/-! ## The middleware pipeline (`_createApiHandler`, lines 423-482)

Middleware in the source is continuation-passing: a link receives
`(req, res, next)` and either calls `next()` or returns its own
`Response`.  We make execution observable by threading a trace of
`Event`s: each link appends what it did.  A `Chain` is the `next`
continuation: it consumes the trace so far and yields the final trace and
response. -/

/-- Response model: status plus the JSON body shapes the claims talk
about (`{error: msg}` bodies and `{errors: [...]}` validation bodies). -/
structure Resp where
  status : Nat
  errorMsg : Option String
  errors : List (String × String)
deriving DecidableEq, Repr

/-- Observable pipeline events. -/
inductive Event where
  | globalEv (id : String)
  | guardEv (id : String)
  | mwEv (id : String)
  | handlerEv
  | validationRun
  | observed (id : String) (status : Nat)
deriving DecidableEq, Repr

/-- Trace of events of one request. -/
abbrev Trace := List Event

/-- Continuation (`next`): final trace and response from the trace so far. -/
abbrev Chain := Trace → Trace × Resp

/-- A pipeline link: receives its `next` continuation, mirrors the
`(req, res, next) => ...` closures. -/
abbrev MiddlewareF := Chain → Chain

/-- Embedding of the composition loop

`for (const mw of list.slice().reverse()) { const next = chain; chain = () => mw(req, res, next); }`

which wraps the base chain so that forward execution follows list order. -/
def composeChain (mws : List MiddlewareF) (base : Chain) : Chain :=
  mws.foldr (fun mw acc => mw acc) base

/-- Opaque options value bound to configurable middleware at load time. -/
abbrev MwOptions := List (String × String)

/-- One entry of an object-style middleware/guards config: either a plain
function or a `{handler, options}` definition. -/
inductive MwEntry where
  | fn (f : MiddlewareF)
  | withOptions (handler : MwOptions → MiddlewareF) (options : MwOptions)

/-- A `config.middleware` / `config.guards` value: absent, an array, or an
object keyed by name (the `Array.isArray` checks of the source
distinguish the latter two). -/
inductive MwConfig where
  | absent
  | arr (l : List MiddlewareF)
  | obj (l : List (String × MwEntry))

/-- Embedding of `ApiRouter.processMiddlewareConfig`: an array is used
directly; an object is walked in key order, plain functions are pushed
and `{handler, options}` entries are wrapped into
`(req, res, next) => handler(req, res, next, config)`. -/
def processMiddlewareConfig : MwConfig → List MiddlewareF
  | .absent => []
  | .arr l => l
  | .obj entries =>
    entries.map (fun e =>
      match e.2 with
      | .fn f => f
      | .withOptions h options => h options)

/-- Embedding of `ApiRouter.processGuardsConfig` (same shape as
`processMiddlewareConfig`). -/
def processGuardsConfig : MwConfig → List MiddlewareF
  | .absent => []
  | .arr l => l
  | .obj entries =>
    entries.map (fun e =>
      match e.2 with
      | .fn f => f
      | .withOptions h options => h options)

/-- Route `config` export as the request-time dispatch reads it:
`perMethod` lists the lower-case method keys whose `config[method].middleware`
is an array, plus the route-wide `middleware` and `guards` configs. -/
structure RouteConfigModel where
  perMethod : List (String × List MiddlewareF)
  middleware : MwConfig
  guards : MwConfig

/-- A route module as `loadRouteModule` consumes it: an optional legacy
`middleware` array export plus the `config` export. -/
structure RouteModuleModel where
  middleware : Option (List MiddlewareF)
  config : RouteConfigModel

/-- Embedding of the middleware assembly of `loadRouteModule`: legacy
array first, then processed `config.middleware`, with processed
`config.guards` prepended (the combined array stored as
`routeDef.middleware`, comment in source: guards run first). -/
def loadCombinedMiddleware (m : RouteModuleModel) : List MiddlewareF :=
  let middlewareArray := (m.middleware.getD []) ++ processMiddlewareConfig m.config.middleware
  let guardsArray := processGuardsConfig m.config.guards
  guardsArray ++ middlewareArray

/-- Runtime route data consumed by the chain builder: the combined
middleware array stored on the route plus its `config`. -/
structure RouteRT where
  middleware : List MiddlewareF
  config : RouteConfigModel

/-- Loading a route module, restricted to the pipeline-relevant fields. -/
def loadRoute (m : RouteModuleModel) : RouteRT :=
  ⟨loadCombinedMiddleware m, m.config⟩

/-- Embedding of the route-middleware source selection of
`_createApiHandler` (lines 432-441): per-method array if present, else
the route-wide `config.middleware` array, else the combined
`route.middleware` array. -/
def selectMethodMiddleware (r : RouteRT) (methodKey : String) : List MiddlewareF :=
  match lookupAssoc r.config.perMethod methodKey with
  | some l => l
  | none =>
    match r.config.middleware with
    | .arr l => l
    | _ => r.middleware

/-! ## Validation middleware (`src/middleware/validator.ts`) -/

/-- Outcome of `safeParse` on one part of the request: validated data or
an error detail. -/
abbrev Validator := List (String × String) → Except String (List (String × String))

/-- Body validator over the parsed JSON payload (payload kept opaque). -/
abbrev BodyValidator := String → Except String String

/-- Schema of one HTTP method: optional validators for params, query and
body. -/
structure MethodSchema where
  params : Option Validator
  query : Option Validator
  body : Option BodyValidator

/-- A route `schema` export: method key (lower case) to method schema. -/
abbrev RouteSchemaM := List (String × MethodSchema)

/-- Request data the validation middleware reads: method, the params
assigned by the dispatcher, the query map, the `Content-Type` header, the
JSON body parse outcome (`req.json()` may throw), and the `req.validated`
re-entry flag. -/
structure ReqData where
  method : String
  params : Option (List (String × String))
  query : List (String × String)
  contentType : Option String
  bodyJson : Except String String
  validated : Bool

/-- JSON content-type test of the validator:
`(req.headers.get('Content-Type') || '').includes('application/json')`. -/
def isJsonContentType (req : ReqData) : Bool :=
  strIncludes (req.contentType.getD "") "application/json"

/-- Embedding of the error collection of the validation middleware: the
three parts are checked in order (params, query, body), each failed part
contributing exactly one `{field, error}` entry; params are only checked
when the request carries a params object, body only when the content type
is JSON and `req.json()` succeeds.  The message text for a non-JSON body
mirrors the source (quotes elided). -/
def collectValidationErrors (ms : MethodSchema) (req : ReqData) :
    List (String × String) :=
  (match ms.params, req.params with
   | some v, some pm =>
     match v pm with
     | .ok _ => []
     | .error e => [("params", e)]
   | _, _ => []) ++
  (match ms.query with
   | some v =>
     match v req.query with
     | .ok _ => []
     | .error e => [("query", e)]
   | none => []) ++
  (match ms.body with
   | some v =>
     if isJsonContentType req then
       match req.bodyJson with
       | .error e => [("body", e)]
       | .ok b =>
         match v b with
         | .ok _ => []
         | .error e => [("body", e)]
     else [("body", "Invalid Content-Type. Expected application/json.")]
   | none => [])

/-- Embedding of `createValidationMiddleware`: skip when already
validated, pass through when the method has no schema, otherwise collect
all errors and either answer 400 with every error (never invoking `next`)
or continue the chain.  Entry into the middleware is recorded as a
`validationRun` event. -/
def createValidationMiddleware (schema : RouteSchemaM) (req : ReqData) :
    MiddlewareF :=
  fun next tr =>
    let tr := tr ++ [Event.validationRun]
    if req.validated then next tr
    else
      match lookupAssoc schema (asciiLower req.method) with
      | none => next tr
      | some ms =>
        let errors := collectValidationErrors ms req
        if errors.isEmpty then next tr
        else (tr, ⟨400, none, errors⟩)

/-! ## The full per-request chain (`_createApiHandler`, lines 431-482) -/

/-- Embedding of the chain assembly and execution: select the method
middleware, wrap the handler with it (reverse-order loop =
`composeChain`), wrap with validation when the route has a `schema`
export, wrap with the global middleware, then execute on the empty trace. -/
def runApiChain (globals : List MiddlewareF) (route : RouteRT)
    (schema : Option RouteSchemaM) (req : ReqData) (handler : Chain) :
    Trace × Resp :=
  let methodMiddleware := selectMethodMiddleware route (asciiLower req.method)
  let routeChain := composeChain methodMiddleware handler
  let composedChain :=
    match schema with
    | some s => createValidationMiddleware s req routeChain
    | none => routeChain
  let finalHandler := composeChain globals composedChain
  finalHandler []

/-! ## Concrete pipeline links used in the theorems

The claims quantify over the middleware a route registers; the theorems
instantiate them with links that log their execution, the exact shape the
spec's testable properties describe. -/

/-- A guard that logs and continues (`return next()`). -/
def guardLogger (id : String) : MiddlewareF :=
  fun next tr => next (tr ++ [Event.guardEv id])

/-- A route middleware that logs and continues. -/
def mwLogger (id : String) : MiddlewareF :=
  fun next tr => next (tr ++ [Event.mwEv id])

/-- The 403 response a rejecting guard produces. -/
def resp403 : Resp := ⟨403, some "Forbidden", []⟩

/-- A guard that returns a 403 response without calling `next`. -/
def guard403 (id : String) : MiddlewareF :=
  fun _ tr => (tr ++ [Event.guardEv id], resp403)

/-- The response of the route handler used in the theorems. -/
def respOk : Resp := ⟨200, none, []⟩

/-- The innermost chain: the route handler itself. -/
def handlerBase : Chain :=
  fun tr => (tr ++ [Event.handlerEv], respOk)

/-- A global middleware that logs entry, runs the rest of the chain, and
records the status of the response it observes coming back. -/
def globalObserver (id : String) : MiddlewareF :=
  fun next tr =>
    let out := next (tr ++ [Event.globalEv id])
    (out.1 ++ [Event.observed id out.2.status], out.2)

/-! ## Page router (`src/core/page-router.ts`) -/

/-- A page definition: path plus handler/middleware identity (the loader
stores `pageModule.default` and `pageModule.middleware`; we track them by
id, which is all the claims compare). -/
structure PageDefinition where
  path : String
  handlerId : Nat
  middlewareId : Nat
deriving DecidableEq, Repr

/-- Embedding of `getRouteSpecificity` from `src/utils/routing.ts`: count
of non-dynamic segments (`reduce` with `+1` unless the segment starts
with `:`). -/
def getRouteSpecificity (path : String) : Nat :=
  (splitSegs path).foldl
    (fun score segment => if isDynamicSeg segment then score else score + 1) 0

/-- Three-way comparison of character lists, modelling the
`localeCompare` tie-break on ASCII route paths. -/
def charListCompare : List Char → List Char → Int
  | [], [] => 0
  | [], _ :: _ => -1
  | _ :: _, [] => 1
  | a :: as, b :: bs =>
    if a < b then -1 else if b < a then 1 else charListCompare as bs

/-- Embedding of `compareRoutes`: higher specificity first, ties broken
by path comparison. -/
def compareRoutes (a b : PageDefinition) : Int :=
  let aSpecificity := getRouteSpecificity a.path
  let bSpecificity := getRouteSpecificity b.path
  if aSpecificity > bSpecificity then -1
  else if aSpecificity < bSpecificity then 1
  else charListCompare a.path.data b.path.data

/-- Stable insertion of a page into a list sorted by `compareRoutes`: the
new page goes after every earlier page it does not strictly precede. -/
def insertPageSorted (p : PageDefinition) : List PageDefinition → List PageDefinition
  | [] => [p]
  | q :: rest =>
    if compareRoutes p q < 0 then p :: q :: rest else q :: insertPageSorted p rest

/-- Embedding of `this.pages.sort((a, b) => compareRoutes(a, b))` as a
stable comparator sort. -/
def sortPages (pages : List PageDefinition) : List PageDefinition :=
  pages.foldl (fun acc p => insertPageSorted p acc) []

/-- Pairwise segment match of `PageRouter.matchRoute`: a dynamic page
segment always matches and captures `params[name] = reqSegment`, a static
one must be equal; mismatch returns `null`. -/
def matchSegs : List String → List String → List (String × String) →
    Option (List (String × String))
  | [], [], ps => some ps
  | pSeg :: prest, reqSeg :: rrest, ps =>
    if isDynamicSeg pSeg then
      matchSegs prest rrest (setAssoc ps (paramNameOf pSeg) reqSeg)
    else if pSeg = reqSeg then matchSegs prest rrest ps
    else none
  | _, _, _ => none

/-- Embedding of `PageRouter.matchRoute`: split both paths, require
exactly equal segment counts, then compare pairwise. -/
def matchRoute (requestPath pagePath : String) : Option (List (String × String)) :=
  let reqSegments := splitSegs requestPath
  let pageSegments := splitSegs pagePath
  if reqSegments.length ≠ pageSegments.length then none
  else matchSegs pageSegments reqSegments []

/-- First-match scan of `PageRouter.resolve` over the (sorted) page list. -/
def findPage (pages : List PageDefinition) (reqPath : String) :
    Option (PageDefinition × List (String × String)) :=
  match pages with
  | [] => none
  | page :: rest =>
    match matchRoute reqPath page.path with
    | some params => some (page, params)
    | none => findPage rest reqPath

/-- Embedding of `PageRouter.resolve`: normalize the request pathname and
return the first page in list order that matches. -/
def pageResolve (pages : List PageDefinition) (pathname : String) :
    Option (PageDefinition × List (String × String)) :=
  findPage pages (normalizePath pathname)

/-- Embedding of the page registration block of `PageRouter.scanDirectory`
(lines 128-143): for one loaded page file, push two page definitions with
the same handler and middleware, the slashed form first
(`push(pageDefWithSlash, pageDef)`). -/
def registerPage (pages : List PageDefinition) (cleanedRoutePath : String)
    (handlerId middlewareId : Nat) : List PageDefinition :=
  pages ++ [⟨cleanedRoutePath ++ "/", handlerId, middlewareId⟩,
            ⟨cleanedRoutePath, handlerId, middlewareId⟩]

/-! ## WebSocket router (`src/core/ws-router.ts`) and upgrade
(`Server.startSocket`) -/

/-- A WebSocket route: declared path pattern plus identity. -/
structure WSRouteDef where
  path : String
  rid : Nat
deriving DecidableEq, Repr

/-- Loop body of the dynamic-route scan of `WebSocketRouter.matchRoute`:
all parts must match pairwise, a `:` part captures `dynamicId` (last
capture wins, as in the source loop). -/
def wsSegsMatch : List String → List String → Option String → Option (Option String)
  | [], [], id => some id
  | routePart :: rrest, pathPart :: prest, id =>
    if isDynamicSeg routePart then wsSegsMatch rrest prest (some pathPart)
    else if routePart = pathPart then wsSegsMatch rrest prest id
    else none
  | _, _, _ => none

/-- Dynamic-route scan of `WebSocketRouter.matchRoute`: first route whose
path contains `/:`, has the same bare-split segment count, and matches
pairwise. -/
def wsFirstDynMatch (cleanPath : String) :
    List WSRouteDef → Option (WSRouteDef × Option String)
  | [] => none
  | route :: rest =>
    if strIncludes route.path "/:" ∧
        (splitAll route.path).length = (splitAll cleanPath).length then
      match wsSegsMatch (splitAll route.path) (splitAll cleanPath) none with
      | some id => some (route, id)
      | none => wsFirstDynMatch cleanPath rest
    else wsFirstDynMatch cleanPath rest

/-- Embedding of `WebSocketRouter.matchRoute`: ensure a leading slash,
try an exact path match first, then the dynamic scan. -/
def wsMatchRoute (routes : List WSRouteDef) (path : String) :
    Option (WSRouteDef × Option String) :=
  let cleanPath := if listStartsWith ['/'] path.data then path else "/" ++ path
  match routes.find? (fun r => r.path = cleanPath) with
  | some r => some (r, none)
  | none => wsFirstDynMatch cleanPath routes

/-- Upgrade data attached to a connection by `Server.startSocket`
(part_004): the captured id and the group path. -/
structure WSData where
  id : Option String
  groupPath : String
deriving DecidableEq, Repr

/-- Embedding of the upgrade branch of `Server.startSocket`: on a route
match, upgrade with `groupPath = url.pathname` (the raw concrete client
path, explicitly not `route.path`); on no match, none (404 WebSocket not
found). -/
def wsUpgradeData (routes : List WSRouteDef) (pathname : String) : Option WSData :=
  match wsMatchRoute routes pathname with
  | some (_, id) => some ⟨id, pathname⟩
  | none => none

/-- Connection groups: group path to the set of member connections
(`Map<string, Set<WebSocket>>`, sets as dedup-on-add lists). -/
abbrev Groups := List (String × List Nat)

/-- Embedding of `WebSocketRouter.addToGroup`: create the group on first
use, then `Set.add` the connection (idempotent). -/
def addToGroup (g : Groups) (path : String) (conn : Nat) : Groups :=
  match lookupAssoc g path with
  | none => g ++ [(path, [conn])]
  | some members =>
    if members.contains conn then g
    else setAssoc g path (members ++ [conn])

/-- Remove the entry of a key from an association list. -/
def removeAssoc (g : Groups) (path : String) : Groups :=
  match g with
  | [] => []
  | (k, v) :: rest =>
    if k = path then rest else (k, v) :: removeAssoc rest path

/-- Embedding of `WebSocketRouter.removeFromGroup`: delete the member
and drop the group entry once it becomes empty. -/
def removeFromGroup (g : Groups) (path : String) (conn : Nat) : Groups :=
  match lookupAssoc g path with
  | none => g
  | some members =>
    let remaining := members.filter (fun c => c ≠ conn)
    if remaining.isEmpty then removeAssoc g path
    else setAssoc g path remaining

/-- Embedding of `WebSocketRouter.getGroupSockets`:
`socketGroups.get(path) || new Set()`. -/
def getGroupSockets (g : Groups) (path : String) : List Nat :=
  (lookupAssoc g path).getD []

/-- Embedding of `WebSocketRouter.broadcast`: the connections a message
to `path` is delivered to (send to every current member). -/
def broadcast (g : Groups) (path : String) : List Nat :=
  getGroupSockets g path

/-! ## Concrete fixtures used by the theorems -/

/-- The substituted concrete form of a route-path segment under a
valuation of parameter names: dynamic segments are replaced by the
valuation at their parameter name, static segments stay. -/
def concreteSeg (σ : String → String) (seg : String) : String :=
  if isDynamicSeg seg then σ (paramNameOf seg) else seg

/-- Parameter names of the dynamic segments of a path. -/
def dynNames (segs : List String) : List String :=
  (segs.filter (fun s => isDynamicSeg s)).map paramNameOf

/-- Validator for a numeric `params.id` (the `z.object({id: number})`
style schema of the validation claim): fails unless every character of
`id` is a digit and the value is nonempty. -/
def numericIdValidator : Validator :=
  fun pm =>
    match lookupAssoc pm "id" with
    | none => .error "Required"
    | some v =>
      if v.data ≠ [] ∧ v.data.all (fun c => c.isDigit) then .ok pm
      else .error "Expected number, received string"

/-- Validator for a required string `query.search`. -/
def searchQueryValidator : Validator :=
  fun q =>
    match lookupAssoc q "search" with
    | none => .error "Required"
    | some _ => .ok q

/-- Route `/users` whose module exports only `GET` (the 405-vs-404
fixture of the spec). -/
def usersRoute : RouteDefinition := ⟨1, "/users", loadHandlers ["GET"]⟩

/-- Trie holding only `usersRoute`. -/
def usersTrie : TrieNode := insertRoute emptyNode usersRoute

/-- Dynamic route `/a/:id` of the trie-round-trip counterexample. -/
def routeAId : RouteDefinition := ⟨1, "/a/:id", ["GET"]⟩

/-- Static route `/a/b` shadowing a concrete instance of `/a/:id`. -/
def routeAB : RouteDefinition := ⟨2, "/a/b", ["GET"]⟩

/-- Trie holding both `/a/:id` and `/a/b`. -/
def shadowTrie : TrieNode := insertRoute (insertRoute emptyNode routeAId) routeAB

/-- Route with two dynamic segments for the round-trip witness. -/
def twoParamRoute : RouteDefinition := ⟨7, "/users/:id/posts/:pid", ["GET"]⟩

/-- Route module exporting only a streaming `SSE` handler. -/
def sseOnlyRoute : RouteDefinition := ⟨3, "/events", loadHandlers ["SSE", "sse"]⟩

/-- Trie holding only the SSE-only route. -/
def sseOnlyTrie : TrieNode := insertRoute emptyNode sseOnlyRoute

/-- Route module exporting both `GET` and `SSE`. -/
def sseGetRoute : RouteDefinition := ⟨4, "/events", loadHandlers ["GET", "SSE"]⟩

/-- Trie holding the `GET`+`SSE` route. -/
def sseGetTrie : TrieNode := insertRoute emptyNode sseGetRoute

/-- Page `/a/b` (two static segments). -/
def pageAB : PageDefinition := ⟨"/a/b", 2, 0⟩

/-- Page `/a/:id` (one static, one dynamic segment). -/
def pageAId : PageDefinition := ⟨"/a/:id", 1, 0⟩

/-- The WebSocket chat route pattern `/socket/chat/:id`. -/
def chatRoute : WSRouteDef := ⟨"/socket/chat/:id", 1⟩

/-- Group registry after connection 1 opened on `room1` and connection 2
on `room2`. -/
def chatGroups : Groups :=
  addToGroup (addToGroup [] "/socket/chat/room1" 1) "/socket/chat/room2" 2

/-- A request whose URL the platform `URL` constructor rejects. -/
def badUrlReq : ReqIn := ⟨"not-a-url", "GET"⟩

/-- Plain GET request data for the pipeline runs. -/
def reqPlain : ReqData := ⟨"GET", some [], [], none, .ok "", false⟩

/-- A schema whose `get` entry has no validators (always passes). -/
def schemaPass : RouteSchemaM := [("get", ⟨none, none, none⟩)]

/-- Route module of the guard-skip counterexample: a guard plus an
array-valued `config.middleware`. -/
def modGuardSkip : RouteModuleModel :=
  ⟨none, ⟨[], .arr [mwLogger "m"], .arr [guardLogger "g"]⟩⟩

/-- Route module of the guard-short-circuit counterexample: a rejecting
guard in `config.guards` and a legacy route middleware array. -/
def modGuardReject : RouteModuleModel :=
  ⟨some [mwLogger "m"], ⟨[], .absent, .arr [guard403 "auth"]⟩⟩

/-- Method schema requiring a numeric `params.id` and a `query.search`. -/
def idSearchSchema : MethodSchema :=
  ⟨some numericIdValidator, some searchQueryValidator, none⟩

/-- Route schema declaring `idSearchSchema` for `get`. -/
def schemaIdSearch : RouteSchemaM := [("get", idSearchSchema)]

/-- Request with `id="abc"` and no `search` query parameter. -/
def reqBadIdNoSearch : ReqData := ⟨"GET", some [("id", "abc")], [], none, .ok "", false⟩

/-! ## Helper lemmas -/

/-- Lookup after an overwrite-or-append update behaves pointwise. -/
theorem lookupAssoc_setAssoc {α : Type} (l : List (String × α)) (k k' : String) (v : α) :
    lookupAssoc (setAssoc l k v) k' = if k = k' then some v else lookupAssoc l k' := by
  induction l with
  | nil => by_cases h : k = k' <;> simp [setAssoc, lookupAssoc, h]
  | cons hd tl ih =>
    obtain ⟨k0, v0⟩ := hd
    by_cases h0 : k0 = k
    · subst h0
      by_cases h : k0 = k' <;> simp [setAssoc, lookupAssoc, h]
    · by_cases h : k0 = k'
      · subst h
        have : ¬ k = k0 := fun hh => h0 hh.symm
        simp [setAssoc, lookupAssoc, h0, this]
      · simp [setAssoc, lookupAssoc, h0, h, ih]

/-- A successful lookup exhibits membership. -/
theorem lookupAssoc_mem {α : Type} {l : List (String × α)} {k : String} {v : α}
    (h : lookupAssoc l k = some v) : (k, v) ∈ l := by
  induction l with
  | nil => simp [lookupAssoc] at h
  | cons hd tl ih =>
    obtain ⟨k0, v0⟩ := hd
    by_cases h0 : k0 = k
    · subst h0
      simp [lookupAssoc] at h
      simp [h]
    · simp [lookupAssoc, h0] at h
      exact List.mem_cons_of_mem _ (ih h)

/-- Composing a concatenation of middleware lists nests the chains. -/
theorem composeChain_append (a b : List MiddlewareF) (c : Chain) :
    composeChain (a ++ b) c = composeChain a (composeChain b c) := by
  simp [composeChain, List.foldr_append]

/-- Guard loggers pass straight through, logging in list order. -/
theorem composeChain_guardLoggers (ids : List String) (c : Chain) (tr : Trace) :
    composeChain (ids.map guardLogger) c tr = c (tr ++ ids.map Event.guardEv) := by
  induction ids generalizing tr with
  | nil => simp [composeChain]
  | cons g gs ih =>
    simp [composeChain, guardLogger] at ih ⊢
    rw [ih]
    simp

/-- Middleware loggers pass straight through, logging in list order. -/
theorem composeChain_mwLoggers (ids : List String) (c : Chain) (tr : Trace) :
    composeChain (ids.map mwLogger) c tr = c (tr ++ ids.map Event.mwEv) := by
  induction ids generalizing tr with
  | nil => simp [composeChain]
  | cons g gs ih =>
    simp [composeChain, mwLogger] at ih ⊢
    rw [ih]
    simp

/-- Global observers log entry in list order and record the status of the
response flowing back, innermost first. -/
theorem composeChain_observers (ids : List String) (c : Chain) (tr : Trace) :
    composeChain (ids.map globalObserver) c tr =
      ((c (tr ++ ids.map Event.globalEv)).1 ++
        ids.reverse.map (fun g => Event.observed g (c (tr ++ ids.map Event.globalEv)).2.status),
       (c (tr ++ ids.map Event.globalEv)).2) := by
  induction ids generalizing tr with
  | nil => simp [composeChain]
  | cons g gs ih =>
    simp only [List.map_cons, composeChain, List.foldr_cons]
    show globalObserver g (composeChain (gs.map globalObserver) c) tr = _
    simp only [globalObserver]
    rw [ih (tr ++ [Event.globalEv g])]
    simp

/-- Inserting deeper segments never changes the `paramName` of the node
inserted into. -/
theorem insertSegs_paramName (t : TrieNode) (segs : List String) (r : RouteDefinition) :
    (insertSegs t segs r).paramName = t.paramName := by
  cases t with
  | mk cs pc pn rt =>
    cases segs with
    | nil => rfl
    | cons seg rest =>
      by_cases h : isDynamicSeg seg <;> simp [insertSegs, h, TrieNode.paramName]

/-- Walking the concretisation of a freshly inserted branch reaches the
terminal node of that branch, with every dynamic segment captured at the
value the valuation substitutes for it. -/
theorem walkTrie_insertSegs_fresh (segs : List String) (t0 : TrieNode)
    (r : RouteDefinition) (σ : String → String) (acc : List (String × String))
    (hch : t0.children = []) (hpc : t0.paramChild = none) :
    ∃ n ps, walkTrie (insertSegs t0 segs r) (segs.map (concreteSeg σ)) acc = some (n, ps) ∧
      n.route = some r ∧
      ∀ k, lookupAssoc ps k =
        if k ∈ dynNames segs then some (σ k) else lookupAssoc acc k := by
  induction segs generalizing t0 acc with
  | nil =>
    cases t0 with
    | mk cs pc pn rt =>
      simp [TrieNode.children] at hch
      subst hch
      refine ⟨TrieNode.mk [] pc pn (some r), acc, ?_, ?_, ?_⟩
      · rfl
      · rfl
      · intro k
        simp [dynNames]
  | cons seg rest ih =>
    cases t0 with
    | mk cs pc pn rt =>
      simp [TrieNode.children] at hch
      simp [TrieNode.paramChild] at hpc
      subst hch
      subst hpc
      by_cases hdyn : isDynamicSeg seg
      · -- dynamic segment: the walk takes the dynamic child and captures
        -- the substituted value under the parameter name
        have hname : (insertSegs (emptyNode.withParamName (paramNameOf seg)) rest r).paramName
            = some (paramNameOf seg) := by
          rw [insertSegs_paramName]
          rfl
        obtain ⟨n, ps, hwalk, hroute, hlook⟩ :=
          ih (emptyNode.withParamName (paramNameOf seg)) (setAssoc acc (paramNameOf seg) (σ (paramNameOf seg))) rfl rfl
        refine ⟨n, ps, ?_, hroute, ?_⟩
        · simp only [insertSegs, hdyn, if_true, List.map_cons]
          simp only [walkTrie, TrieNode.children, TrieNode.paramChild, lookupAssoc,
            Option.getD_none]
          rw [hname]
          simp only [Option.getD_some, concreteSeg, hdyn, if_true]
          exact hwalk
        · intro k
          rw [hlook k]
          have hdn : dynNames (seg :: rest) = paramNameOf seg :: dynNames rest := by
            simp [dynNames, List.filter_cons, hdyn]
          rw [hdn, lookupAssoc_setAssoc]
          by_cases h1 : k ∈ dynNames rest
          · simp [h1]
          · by_cases h2 : paramNameOf seg = k
            · subst h2
              simp [h1]
            · have h2' : ¬ k = paramNameOf seg := fun hh => h2 hh.symm
              simp [h1, h2, h2']
      · -- static segment: the walk finds the exact static child
        obtain ⟨n, ps, hwalk, hroute, hlook⟩ := ih emptyNode acc rfl rfl
        refine ⟨n, ps, ?_, hroute, ?_⟩
        · simp only [insertSegs, hdyn, if_false, List.map_cons]
          simp only [lookupAssoc, Option.getD_none, setAssoc]
          simp only [walkTrie, TrieNode.children, lookupAssoc, concreteSeg, hdyn, if_false, if_true]
          simpa [emptyNode] using hwalk
        · intro k
          rw [hlook k]
          have hdn : dynNames (seg :: rest) = dynNames rest := by
            simp [dynNames, List.filter_cons, hdyn]
          rw [hdn]

/-- Any route the walk terminates on is stored in the trie. -/
theorem walkTrie_routeIn (segs : List String) (t : TrieNode)
    (acc ps : List (String × String)) (n : TrieNode) (r : RouteDefinition)
    (hwalk : walkTrie t segs acc = some (n, ps)) (hroute : n.route = some r) :
    RouteIn r t := by
  induction segs generalizing t acc with
  | nil =>
    simp [walkTrie] at hwalk
    obtain ⟨h1, h2⟩ := hwalk
    subst h1
    exact RouteIn.here t hroute
  | cons seg rest ih =>
    simp only [walkTrie] at hwalk
    cases hlook : lookupAssoc t.children seg with
    | some c =>
      rw [hlook] at hwalk
      exact RouteIn.staticChild t seg c (lookupAssoc_mem hlook) (ih c acc hwalk)
    | none =>
      rw [hlook] at hwalk
      cases hpc : t.paramChild with
      | some c =>
        rw [hpc] at hwalk
        exact RouteIn.dynChild t c hpc (ih c _ hwalk)
      | none =>
        rw [hpc] at hwalk
        simp at hwalk

/-- The character-list comparison is antisymmetric under negation. -/
theorem charListCompare_neg (a b : List Char) :
    charListCompare a b = -(charListCompare b a) := by
  induction a generalizing b with
  | nil => cases b <;> simp [charListCompare]
  | cons x xs ih =>
    cases b with
    | nil => simp [charListCompare]
    | cons y ys =>
      rcases lt_trichotomy x y with h | h | h
      · simp [charListCompare, h, not_lt_of_gt h]
      · subst h
        simp [charListCompare, lt_irrefl, ih]
      · simp [charListCompare, h, not_lt_of_gt h]

/-- Transitivity of the non-positive side of the character comparison. -/
theorem charListCompare_trans {a b c : List Char}
    (hab : charListCompare a b ≤ 0) (hbc : charListCompare b c ≤ 0) :
    charListCompare a c ≤ 0 := by
  induction a generalizing b c with
  | nil => cases c <;> simp [charListCompare]
  | cons x xs ih =>
    cases b with
    | nil => simp [charListCompare] at hab
    | cons y ys =>
      cases c with
      | nil => simp [charListCompare] at hbc
      | cons z zs =>
        by_cases hxy : x < y
        · by_cases hyz : y < z
          · simp [charListCompare, lt_trans hxy hyz]
          · by_cases hzy : z < y
            · simp [charListCompare, hyz, hzy] at hbc
            · have : y = z := le_antisymm (not_lt.mp hzy) (not_lt.mp hyz)
              subst this
              simp [charListCompare, hxy]
        · by_cases hyx : y < x
          · simp [charListCompare, hxy, hyx] at hab
          · have : x = y := le_antisymm (not_lt.mp hyx) (not_lt.mp hxy)
            subst this
            by_cases hyz : x < z
            · simp [charListCompare, hyz]
            · by_cases hzy : z < x
              · simp [charListCompare, hyz, hzy] at hbc
              · have : x = z := le_antisymm (not_lt.mp hzy) (not_lt.mp hyz)
                subst this
                simp [charListCompare, lt_irrefl] at hab hbc ⊢
                exact ih hab hbc

/-- Unfolded description of a non-positive `compareRoutes` outcome:
either strictly higher specificity, or equal specificity with a
non-positive path comparison. -/
theorem compareRoutes_nonpos_iff (a b : PageDefinition) :
    compareRoutes a b ≤ 0 ↔
      (getRouteSpecificity b.path < getRouteSpecificity a.path ∨
        (getRouteSpecificity a.path = getRouteSpecificity b.path ∧
          charListCompare a.path.data b.path.data ≤ 0)) := by
  unfold compareRoutes
  by_cases h1 : getRouteSpecificity a.path > getRouteSpecificity b.path
  · rw [if_pos h1]
    constructor
    · intro _
      left
      exact h1
    · intro _
      omega
  · by_cases h2 : getRouteSpecificity a.path < getRouteSpecificity b.path
    · rw [if_neg h1, if_pos h2]
      constructor
      · intro hcon
        omega
      · intro hdis
        rcases hdis with h | ⟨h, _⟩ <;> omega
    · rw [if_neg h1, if_neg h2]
      have he : getRouteSpecificity a.path = getRouteSpecificity b.path := by omega
      constructor
      · intro hc
        right
        exact ⟨he, hc⟩
      · intro hdis
        rcases hdis with h | ⟨_, hc⟩
        · omega
        · exact hc

/-- Negation symmetry of the route comparator. -/
theorem compareRoutes_neg (a b : PageDefinition) :
    compareRoutes a b = -(compareRoutes b a) := by
  unfold compareRoutes
  rcases lt_trichotomy (getRouteSpecificity a.path) (getRouteSpecificity b.path) with h | h | h
  · rw [if_neg (by omega), if_pos h, if_pos h]
    rfl
  · rw [if_neg (by omega), if_neg (by omega), if_neg (by omega), if_neg (by omega)]
    exact charListCompare_neg _ _
  · rw [if_pos h, if_neg (by omega), if_pos h]

/-- The comparator order of `compareRoutes` is total. -/
theorem compareRoutes_total (a b : PageDefinition) :
    compareRoutes a b ≤ 0 ∨ compareRoutes b a ≤ 0 := by
  rw [compareRoutes_nonpos_iff, compareRoutes_nonpos_iff]
  rcases lt_trichotomy (getRouteSpecificity a.path) (getRouteSpecificity b.path) with h | h | h
  · right; left; exact h
  · rcases le_or_lt (charListCompare a.path.data b.path.data) 0 with hc | hc
    · left; right; exact ⟨h, hc⟩
    · right; right
      refine ⟨h.symm, ?_⟩
      rw [charListCompare_neg]
      omega
  · left; left; exact h

/-- The comparator order of `compareRoutes` is transitive. -/
theorem compareRoutes_trans {a b c : PageDefinition}
    (hab : compareRoutes a b ≤ 0) (hbc : compareRoutes b c ≤ 0) :
    compareRoutes a c ≤ 0 := by
  rw [compareRoutes_nonpos_iff] at hab hbc ⊢
  rcases hab with h1 | ⟨h1, h1c⟩
  · rcases hbc with h2 | ⟨h2, _⟩
    · left; omega
    · left; omega
  · rcases hbc with h2 | ⟨h2, h2c⟩
    · left; omega
    · right
      exact ⟨by omega, charListCompare_trans h1c h2c⟩

/-- Membership through the sorted insertion. -/
theorem mem_insertPageSorted {x p : PageDefinition} {l : List PageDefinition} :
    x ∈ insertPageSorted p l ↔ x = p ∨ x ∈ l := by
  induction l with
  | nil => simp [insertPageSorted]
  | cons q rest ih =>
    by_cases h : compareRoutes p q < 0
    · rw [insertPageSorted, if_pos h]
      simp
    · rw [insertPageSorted, if_neg h]
      simp [ih]
      tauto

/-- Sorted insertion preserves comparator sortedness. -/
theorem insertPageSorted_pairwise {p : PageDefinition} {l : List PageDefinition}
    (hl : l.Pairwise (fun a b => compareRoutes a b ≤ 0)) :
    (insertPageSorted p l).Pairwise (fun a b => compareRoutes a b ≤ 0) := by
  induction l with
  | nil => simp [insertPageSorted]
  | cons q rest ih =>
    rcases List.pairwise_cons.mp hl with ⟨hq, hrest⟩
    by_cases h : compareRoutes p q < 0
    · rw [insertPageSorted, if_pos h]
      refine List.pairwise_cons.mpr ⟨?_, hl⟩
      intro x hx
      rcases List.mem_cons.mp hx with hxq | hxr
      · subst hxq
        omega
      · exact compareRoutes_trans (le_of_lt h) (hq x hxr)
    · rw [insertPageSorted, if_neg h]
      refine List.pairwise_cons.mpr ⟨?_, ih hrest⟩
      intro x hx
      rcases mem_insertPageSorted.mp hx with hxp | hxr
      · rw [hxp]
        have hneg := compareRoutes_neg q p
        omega
      · exact hq x hxr

/-- The page sort produces a list sorted by the comparator. -/
theorem sortPages_pairwise (pages : List PageDefinition) :
    (sortPages pages).Pairwise (fun a b => compareRoutes a b ≤ 0) := by
  have general : ∀ (l acc : List PageDefinition),
      acc.Pairwise (fun a b => compareRoutes a b ≤ 0) →
      (l.foldl (fun acc p => insertPageSorted p acc) acc).Pairwise
        (fun a b => compareRoutes a b ≤ 0) := by
    intro l
    induction l with
    | nil => intro acc h; simpa using h
    | cons p rest ih =>
      intro acc h
      exact ih _ (insertPageSorted_pairwise h)
  exact general pages [] (by simp)

/-- A trailing slash contributes no segment to the filtered split. -/
theorem splitSegsAux_trailing_slash (cs : List Char) (cur : List Char) :
    splitSegsAux cur (cs ++ ['/']) = splitSegsAux cur cs := by
  induction cs generalizing cur with
  | nil =>
    by_cases h : cur.isEmpty <;> simp [splitSegsAux, h]
  | cons c rest ih =>
    by_cases hc : c = '/'
    · subst hc
      by_cases h : cur.isEmpty <;> simp [splitSegsAux, h, ih]
    · simp [splitSegsAux, hc, ih]

/-- Appending a trailing slash to a path leaves its filtered segments
unchanged. -/
theorem splitSegs_append_slash (p : String) :
    splitSegs (p ++ "/") = splitSegs p := by
  show splitSegsAux [] (p ++ "/").data = splitSegsAux [] p.data
  have hdata : (p ++ "/").data = p.data ++ ['/'] := rfl
  rw [hdata, splitSegsAux_trailing_slash]

/-- When the request is not yet validated, the method has a schema and
every check passes, the validation middleware records its run and hands
over to the inner chain. -/
theorem validation_pass_through (schema : RouteSchemaM) (req : ReqData)
    (ms : MethodSchema) (next : Chain) (tr : Trace)
    (hval : req.validated = false)
    (hms : lookupAssoc schema (asciiLower req.method) = some ms)
    (herr : collectValidationErrors ms req = []) :
    createValidationMiddleware schema req next tr = next (tr ++ [Event.validationRun]) := by
  simp [createValidationMiddleware, hval, hms, herr]

/-- Evaluation of the guard-bearing route chain: the guards before the
rejecting guard log and pass through, the rejecting guard answers 403
without invoking anything after it. -/
theorem guardChain_eval (P Q ms : List String) (gid : String) (tr : Trace) :
    composeChain ((P.map guardLogger ++ guard403 gid :: Q.map guardLogger) ++
        (ms.map mwLogger ++ [])) handlerBase tr =
      (tr ++ P.map Event.guardEv ++ [Event.guardEv gid], resp403) := by
  have hl : (P.map guardLogger ++ guard403 gid :: Q.map guardLogger) ++
      (ms.map mwLogger ++ []) =
      P.map guardLogger ++
        (guard403 gid :: (Q.map guardLogger ++ ms.map mwLogger)) := by
    simp
  rw [hl, composeChain_append, composeChain_guardLoggers]
  simp [composeChain, guard403]

/-! ## Claim theorems -/

/-- Claim C1.  On the code as written, a request whose path matches a
route but whose method has no handler is answered 404 `Route not found`,
not 405: `resolve` collapses the method miss into the no-route result
`{params: {}}`, so the 405 `Method Not Allowed` branch of
`_createApiHandler` is unreachable.  Concretely, with `/users` exporting
only `GET`, `POST /users` yields 404 (the claim and spec say 405), while
`GET /missing` yields 404 and `GET /users` reaches the chain. -/
theorem post_on_get_only_route_is_404_not_405 :
    apiHandlerDispatch usersTrie ⟨"http://localhost:4000/users", "POST"⟩ =
      .response 404 (some "Route not found") ∧
    apiHandlerDispatch usersTrie ⟨"http://localhost:4000/missing", "GET"⟩ =
      .response 404 (some "Route not found") ∧
    apiHandlerDispatch usersTrie ⟨"http://localhost:4000/users", "GET"⟩ =
      .chain 1 [] false := by
  refine ⟨by decide, by decide, by decide⟩

/-- Claim C5.  The SSE execution path is unreachable: `loadRouteModule`
copies only the seven `HTTP_METHODS` into the handler map, so an exported
`SSE`/`sse` function never lands in `route.handlers`; moreover `resolve`
already fails when `handlers[method]` is missing.  A module exporting
only `SSE` answers 404 to `GET`, and even a module exporting both `GET`
and `SSE` runs the plain handler with the SSE flag off. -/
theorem sse_branch_unreachable :
    loadHandlers ["SSE", "sse"] = [] ∧
    apiHandlerDispatch sseOnlyTrie ⟨"http://localhost:4000/events", "GET"⟩ =
      .response 404 (some "Route not found") ∧
    apiHandlerDispatch sseGetTrie ⟨"http://localhost:4000/events", "GET"⟩ =
      .chain 4 [] false := by
  refine ⟨by decide, by decide, by decide⟩

/-- Claim C4, counterexample.  With `/a/:id` and `/a/b` both inserted,
resolving the concrete path of `/a/:id` obtained by substituting `b` for
`:id` returns the static route `/a/b`, not the original dynamic route:
the static child is preferred at every level, so the round trip fails on
multi-route tries. -/
theorem trie_roundtrip_shadowed :
    resolveSegs shadowTrie
      ((splitSegs routeAId.path).map (concreteSeg (fun _ => "b"))) "GET" =
      ⟨some routeAB, []⟩ ∧
    routeAB ≠ routeAId := by
  refine ⟨by decide, by decide⟩

/-- Claim C4, amended.  For a trie holding a single inserted route, with
any number of dynamic segments, resolving the concrete segment path
obtained by substituting the valuation at every dynamic segment returns
that route, with the captured params binding every declared parameter
name to its substituted value.  (With further routes inserted, a
substituted value that equals a static sibling label is redirected to the
static branch — see the counterexample.) -/
theorem trie_roundtrip_single_route (r : RouteDefinition) (σ : String → String)
    (M : String) (hm : r.methods.contains M = true) :
    ∃ ps, resolveSegs (insertRoute emptyNode r)
        ((splitSegs r.path).map (concreteSeg σ)) M = ⟨some r, ps⟩ ∧
      ∀ name ∈ dynNames (splitSegs r.path), lookupAssoc ps name = some (σ name) := by
  obtain ⟨n, ps, hwalk, hroute, hlook⟩ :=
    walkTrie_insertSegs_fresh (splitSegs r.path) emptyNode r σ [] rfl rfl
  refine ⟨ps, ?_, ?_⟩
  · show resolveSegs (insertSegs emptyNode (splitSegs r.path) r) _ _ = _
    unfold resolveSegs
    rw [hwalk]
    have hm' : M ∈ r.methods := by simpa using hm
    simp [hroute, hm']
  · intro name hname
    rw [hlook name]
    simp [hname]

/-- Witness of the amended claim C4 at a concrete route with two dynamic
segments. -/
theorem trie_roundtrip_single_route_witness :
    twoParamRoute.methods.contains "GET" = true ∧
    (∃ ps, resolveSegs (insertRoute emptyNode twoParamRoute)
        ((splitSegs twoParamRoute.path).map
          (concreteSeg (fun n => if n = "id" then "7" else "42"))) "GET" =
        ⟨some twoParamRoute, ps⟩ ∧
      ∀ name ∈ dynNames (splitSegs twoParamRoute.path),
        lookupAssoc ps name =
          some (if name = "id" then "7" else "42")) :=
  ⟨by decide,
   trie_roundtrip_single_route twoParamRoute
     (fun n => if n = "id" then "7" else "42") "GET" (by decide)⟩

/-- Claim C9.  `ApiRouter.resolve` is total at its interface: a request
whose URL the `URL` constructor rejects is answered with the empty result
`{params: {}}` (the `catch` branch), and any route it ever answers with
is one stored in the trie; the embedding is a pure function of the trie,
which it never modifies. -/
theorem resolve_total_and_safe (t : TrieNode) (req : ReqIn) :
    (parseUrlPathname req.url = none → apiResolve t req = ⟨none, []⟩) ∧
    ((apiResolve t req).route = none ∨
      ∃ r, (apiResolve t req).route = some r ∧ RouteIn r t) := by
  constructor
  · intro h
    simp [apiResolve, h]
  · cases hp : parseUrlPathname req.url with
    | none =>
      left
      simp [apiResolve, hp]
    | some pathname =>
      cases hw : walkTrie t (splitSegs (normalizePath pathname)) [] with
      | none =>
        left
        simp [apiResolve, resolveSegs, hp, hw]
      | some pr =>
        obtain ⟨n, ps⟩ := pr
        cases hr : n.route with
        | none =>
          left
          simp [apiResolve, resolveSegs, hp, hw, hr]
        | some r =>
          by_cases hc : r.methods.contains (asciiUpper req.method) = true
          · right
            refine ⟨r, ?_, walkTrie_routeIn _ t [] ps n r hw hr⟩
            have hc' : asciiUpper req.method ∈ r.methods := by simpa using hc
            simp [apiResolve, resolveSegs, hp, hw, hr, hc']
          · left
            have hc' : asciiUpper req.method ∉ r.methods := by simpa using hc
            simp [apiResolve, resolveSegs, hp, hw, hr, hc']

/-- Witness of claim C9 at a malformed URL. -/
theorem resolve_total_and_safe_witness :
    parseUrlPathname badUrlReq.url = none ∧
    apiResolve usersTrie badUrlReq = ⟨none, []⟩ :=
  ⟨by decide, (resolve_total_and_safe usersTrie badUrlReq).1 (by decide)⟩

/-- Claim C10.  For every page file, the registration block of
`PageRouter.scanDirectory` appends exactly two page definitions sharing
handler and middleware, one at the cleaned route path and one at that
path with a trailing slash; and since `matchRoute` splits with the
empty-segment filter, the two registered paths match exactly the same
request paths, so both URL forms resolve to the same handler. -/
theorem page_registered_with_and_without_slash
    (pages : List PageDefinition) (cleanedRoutePath : String) (h mw : Nat) :
    registerPage pages cleanedRoutePath h mw =
      pages ++ [⟨cleanedRoutePath ++ "/", h, mw⟩, ⟨cleanedRoutePath, h, mw⟩] ∧
    (∀ requestPath, matchRoute requestPath (cleanedRoutePath ++ "/") =
      matchRoute requestPath cleanedRoutePath) := by
  refine ⟨rfl, ?_⟩
  intro requestPath
  simp [matchRoute, splitSegs_append_slash]

/-- Claim C6.  Page-router precedence: with pages `/a/:id` and `/a/b`,
either registration order sorts `/a/b` (specificity 2) first and a
request to `/a/b` resolves to the static page while `/a/zzz` resolves to
the dynamic page capturing `id`; in general the sorted list is ordered by
the comparator (higher specificity first, ties by path comparison) and a
page whose segment count differs from the request can never match. -/
theorem page_precedence :
    sortPages [pageAId, pageAB] = [pageAB, pageAId] ∧
    sortPages [pageAB, pageAId] = [pageAB, pageAId] ∧
    pageResolve (sortPages [pageAId, pageAB]) "/a/b" = some (pageAB, []) ∧
    pageResolve (sortPages [pageAB, pageAId]) "/a/b" = some (pageAB, []) ∧
    pageResolve (sortPages [pageAId, pageAB]) "/a/zzz" =
      some (pageAId, [("id", "zzz")]) ∧
    (∀ pages : List PageDefinition,
      (sortPages pages).Pairwise (fun a b => compareRoutes a b ≤ 0)) ∧
    (∀ requestPath pagePath : String,
      (splitSegs requestPath).length ≠ (splitSegs pagePath).length →
      matchRoute requestPath pagePath = none) := by
  refine ⟨by decide, by decide, by decide, by decide, by decide,
    sortPages_pairwise, ?_⟩
  intro requestPath pagePath hlen
  simp [matchRoute, hlen]

/-- Witness of claim C6 at unequal segment counts. -/
theorem page_precedence_witness :
    (splitSegs "/a").length ≠ (splitSegs "/a/b").length ∧
    matchRoute "/a" "/a/b" = none :=
  ⟨by decide, page_precedence.2.2.2.2.2.2 "/a" "/a/b" (by decide)⟩

/-- Claim C8.  On a successful upgrade the group path is the raw
incoming pathname, never the declared pattern: two connections on
`/socket/chat/room1` and `/socket/chat/room2` (both matching
`/socket/chat/:id`) land in disjoint groups and a broadcast to one group
path is delivered only to that group; in general the upgrade data always
carries the raw pathname, and two adds under different paths yield
singleton broadcasts. -/
theorem ws_group_is_raw_pathname :
    wsUpgradeData [chatRoute] "/socket/chat/room1" =
      some ⟨some "room1", "/socket/chat/room1"⟩ ∧
    wsUpgradeData [chatRoute] "/socket/chat/room2" =
      some ⟨some "room2", "/socket/chat/room2"⟩ ∧
    "/socket/chat/room1" ≠ chatRoute.path ∧
    broadcast chatGroups "/socket/chat/room1" = [1] ∧
    broadcast chatGroups "/socket/chat/room2" = [2] ∧
    (∀ (routes : List WSRouteDef) (pathname : String) (d : WSData),
      wsUpgradeData routes pathname = some d → d.groupPath = pathname) ∧
    (∀ (p1 p2 : String) (c1 c2 : Nat), p1 ≠ p2 →
      broadcast (addToGroup (addToGroup [] p1 c1) p2 c2) p1 = [c1] ∧
      broadcast (addToGroup (addToGroup [] p1 c1) p2 c2) p2 = [c2]) := by
  refine ⟨by decide, by decide, by decide, by decide, by decide, ?_, ?_⟩
  · intro routes pathname d h
    unfold wsUpgradeData at h
    cases hm : wsMatchRoute routes pathname with
    | none =>
      rw [hm] at h
      simp at h
    | some pr =>
      rw [hm] at h
      obtain ⟨route, id⟩ := pr
      simp at h
      rw [← h]
  · intro p1 p2 c1 c2 hne
    have hne' : ¬ p1 = p2 := hne
    constructor
    · simp [addToGroup, broadcast, getGroupSockets, lookupAssoc, hne']
    · simp [addToGroup, broadcast, getGroupSockets, lookupAssoc, hne']

/-- Witness of claim C8: the general conjuncts applied at concrete
paths. -/
theorem ws_group_is_raw_pathname_witness :
    ((⟨some "room1", "/socket/chat/room1"⟩ : WSData).groupPath =
      "/socket/chat/room1") ∧
    broadcast (addToGroup (addToGroup [] "/a" 1) "/b" 2) "/a" = [1] :=
  ⟨ws_group_is_raw_pathname.2.2.2.2.2.1 [chatRoute] "/socket/chat/room1"
      ⟨some "room1", "/socket/chat/room1"⟩ (by decide),
   (ws_group_is_raw_pathname.2.2.2.2.2.2 "/a" "/b" 1 2 (by decide)).1⟩

/-- Claim C2, counterexample.  With a schema present and a guard that
answers 403 without calling `next`, the validation middleware does
execute: it wraps the route chain, so it runs before the guard.  The
final response is the guard's 403 and the handler never runs, but
`validationRun` is in the trace, refuting "the schema-validation
middleware is never executed". -/
theorem validation_runs_before_rejecting_guard :
    runApiChain [globalObserver "log"] (loadRoute modGuardReject)
      (some schemaPass) reqPlain handlerBase =
      ([Event.globalEv "log", Event.validationRun, Event.guardEv "auth",
        Event.observed "log" 403], resp403) ∧
    Event.validationRun ∈
      (runApiChain [globalObserver "log"] (loadRoute modGuardReject)
        (some schemaPass) reqPlain handlerBase).1 ∧
    Event.handlerEv ∉
      (runApiChain [globalObserver "log"] (loadRoute modGuardReject)
        (some schemaPass) reqPlain handlerBase).1 := by
  refine ⟨rfl, by decide, by decide⟩

/-- Claim C2, amended.  For a route whose guards contain a 403-rejecting
guard (preceded by pass-through guards `P`, followed by further guards
`Q`), with route middleware `ms`, a passing schema and global middleware
observers `G`: the validation middleware executes first (it wraps the
route chain), then the guards before the rejecting one, then the
rejecting guard; the route middleware and the handler never execute, and
every global middleware observes 403 as the final response. -/
theorem guard_short_circuit (G P Q ms : List String) (gid : String)
    (schema : RouteSchemaM) (msch : MethodSchema) (req : ReqData)
    (hval : req.validated = false)
    (hms : lookupAssoc schema (asciiLower req.method) = some msch)
    (herr : collectValidationErrors msch req = []) :
    runApiChain (G.map globalObserver)
      (loadRoute ⟨some (ms.map mwLogger),
        ⟨[], MwConfig.absent,
          MwConfig.arr (P.map guardLogger ++ guard403 gid :: Q.map guardLogger)⟩⟩)
      (some schema) req handlerBase =
      (G.map Event.globalEv ++ [Event.validationRun] ++ P.map Event.guardEv ++
        [Event.guardEv gid] ++
        G.reverse.map (fun g => Event.observed g 403), resp403) ∧
    Event.handlerEv ∉
      (G.map Event.globalEv ++ [Event.validationRun] ++ P.map Event.guardEv ++
        [Event.guardEv gid] ++
        G.reverse.map (fun g => Event.observed g 403)) ∧
    ∀ i, Event.mwEv i ∉
      (G.map Event.globalEv ++ [Event.validationRun] ++ P.map Event.guardEv ++
        [Event.guardEv gid] ++
        G.reverse.map (fun g => Event.observed g 403)) := by
  refine ⟨?_, ?_, ?_⟩
  · have h0 : runApiChain (G.map globalObserver)
        (loadRoute ⟨some (ms.map mwLogger),
          ⟨[], MwConfig.absent,
            MwConfig.arr (P.map guardLogger ++ guard403 gid :: Q.map guardLogger)⟩⟩)
        (some schema) req handlerBase =
        composeChain (G.map globalObserver)
          (createValidationMiddleware schema req
            (composeChain
              ((P.map guardLogger ++ guard403 gid :: Q.map guardLogger) ++
                (ms.map mwLogger ++ [])) handlerBase)) [] := rfl
    rw [h0, composeChain_observers]
    rw [List.nil_append,
      validation_pass_through schema req msch _ _ hval hms herr,
      guardChain_eval]
    simp [resp403]
  · simp
  · intro i
    simp

/-- Witness of the amended claim C2 at one observer, one passing guard
and one route middleware. -/
theorem guard_short_circuit_witness :
    reqPlain.validated = false ∧
    lookupAssoc schemaPass (asciiLower reqPlain.method) =
      some (⟨none, none, none⟩ : MethodSchema) ∧
    collectValidationErrors ⟨none, none, none⟩ reqPlain = [] ∧
    (runApiChain [globalObserver "log"]
      (loadRoute ⟨some (mwLogger "m" :: []),
        ⟨[], MwConfig.absent,
          MwConfig.arr (guardLogger "pre" :: [] ++ guard403 "auth" :: [])⟩⟩)
      (some schemaPass) reqPlain handlerBase =
      ([Event.globalEv "log", Event.validationRun, Event.guardEv "pre",
        Event.guardEv "auth", Event.observed "log" 403], resp403) ∧
      Event.handlerEv ∉
        ([Event.globalEv "log", Event.validationRun, Event.guardEv "pre",
          Event.guardEv "auth", Event.observed "log" 403] : Trace) ∧
      ∀ i, Event.mwEv i ∉
        ([Event.globalEv "log", Event.validationRun, Event.guardEv "pre",
          Event.guardEv "auth", Event.observed "log" 403] : Trace)) := by
  refine ⟨rfl, rfl, rfl, ?_⟩
  have h := guard_short_circuit ["log"] ["pre"] [] ["m"] "auth" schemaPass
    ⟨none, none, none⟩ reqPlain rfl rfl rfl
  simpa using h

/-- Claim C3, counterexample.  A route declaring `config.guards = [g]`
and an array-valued `config.middleware = [m]`: the loader combines them
as `[g, m]` into `route.middleware`, but the request-time source
selection picks the `config.middleware` array alone, so the guard never
executes at all — refuting "guards execute before any middleware
regardless of which source is active". -/
theorem guard_skipped_with_config_middleware_array :
    runApiChain [] (loadRoute modGuardSkip) none reqPlain handlerBase =
      ([Event.mwEv "m", Event.handlerEv], respOk) ∧
    Event.guardEv "g" ∉
      (runApiChain [] (loadRoute modGuardSkip) none reqPlain handlerBase).1 := by
  exact ⟨rfl, by decide⟩

/-- Claim C3, amended.  Guards run before the route middleware exactly
when the executed source is the combined `route.middleware` array (no
per-method and no array-valued `config.middleware`): then the trace is
all guards, then all middleware, then the handler.  When
`config[method].middleware` is an array, it alone executes — taking
precedence even over an array-valued `config.middleware` — and no guard
runs at all; likewise when only `config.middleware` is an array. -/
theorem guards_first_only_for_combined_source (gs ms pm : List String) (req : ReqData) :
    (runApiChain [] (loadRoute ⟨some (ms.map mwLogger),
        ⟨[], MwConfig.absent, MwConfig.arr (gs.map guardLogger)⟩⟩)
      none req handlerBase =
      (gs.map Event.guardEv ++ ms.map Event.mwEv ++ [Event.handlerEv], respOk)) ∧
    (runApiChain [] (loadRoute ⟨some (ms.map mwLogger),
        ⟨[(asciiLower req.method, pm.map mwLogger)],
          MwConfig.arr (ms.map mwLogger), MwConfig.arr (gs.map guardLogger)⟩⟩)
      none req handlerBase =
      (pm.map Event.mwEv ++ [Event.handlerEv], respOk)) ∧
    (runApiChain [] (loadRoute ⟨none,
        ⟨[], MwConfig.arr (ms.map mwLogger), MwConfig.arr (gs.map guardLogger)⟩⟩)
      none req handlerBase =
      (ms.map Event.mwEv ++ [Event.handlerEv], respOk)) ∧
    (∀ g, Event.guardEv g ∉ (pm.map Event.mwEv ++ [Event.handlerEv] : Trace)) ∧
    ∀ g, Event.guardEv g ∉ (ms.map Event.mwEv ++ [Event.handlerEv] : Trace) := by
  refine ⟨?_, ?_, ?_, ?_, ?_⟩
  · have h0 : runApiChain [] (loadRoute ⟨some (ms.map mwLogger),
        ⟨[], MwConfig.absent, MwConfig.arr (gs.map guardLogger)⟩⟩)
        none req handlerBase =
        composeChain (gs.map guardLogger ++ (ms.map mwLogger ++ []))
          handlerBase [] := rfl
    have hl : gs.map guardLogger ++ (ms.map mwLogger ++ []) =
        gs.map guardLogger ++ ms.map mwLogger := by simp
    rw [h0, hl, composeChain_append, composeChain_guardLoggers,
      composeChain_mwLoggers]
    simp [handlerBase]
  · have h0 : runApiChain [] (loadRoute ⟨some (ms.map mwLogger),
        ⟨[(asciiLower req.method, pm.map mwLogger)],
          MwConfig.arr (ms.map mwLogger), MwConfig.arr (gs.map guardLogger)⟩⟩)
        none req handlerBase =
        composeChain (selectMethodMiddleware
          (loadRoute ⟨some (ms.map mwLogger),
            ⟨[(asciiLower req.method, pm.map mwLogger)],
              MwConfig.arr (ms.map mwLogger), MwConfig.arr (gs.map guardLogger)⟩⟩)
          (asciiLower req.method)) handlerBase [] := rfl
    have hsel : selectMethodMiddleware
        (loadRoute ⟨some (ms.map mwLogger),
          ⟨[(asciiLower req.method, pm.map mwLogger)],
            MwConfig.arr (ms.map mwLogger), MwConfig.arr (gs.map guardLogger)⟩⟩)
        (asciiLower req.method) = pm.map mwLogger := by
      simp [selectMethodMiddleware, loadRoute, lookupAssoc]
    rw [h0, hsel, composeChain_mwLoggers]
    simp [handlerBase]
  · have h0 : runApiChain [] (loadRoute ⟨none,
        ⟨[], MwConfig.arr (ms.map mwLogger), MwConfig.arr (gs.map guardLogger)⟩⟩)
        none req handlerBase =
        composeChain (ms.map mwLogger) handlerBase [] := rfl
    rw [h0, composeChain_mwLoggers]
    simp [handlerBase]
  · intro g
    simp
  · intro g
    simp

/-- Claim C7.  The validation middleware is fail-closed and aggregating:
when the request is not yet validated and the method has a schema, any
nonempty error collection yields one 400 response carrying the whole
collection (params, query and body all checked, in that order, one entry
per failed part) and the inner chain — quantified over every possible
continuation — is never invoked. -/
theorem validation_fail_closed (schema : RouteSchemaM) (msch : MethodSchema)
    (req : ReqData) (next : Chain) (tr : Trace)
    (hval : req.validated = false)
    (hms : lookupAssoc schema (asciiLower req.method) = some msch)
    (herr : collectValidationErrors msch req ≠ []) :
    createValidationMiddleware schema req next tr =
      (tr ++ [Event.validationRun],
        ⟨400, none, collectValidationErrors msch req⟩) := by
  have h : (collectValidationErrors msch req).isEmpty = false := by
    simpa [List.isEmpty_iff] using herr
  simp [createValidationMiddleware, hval, hms, h]

/-- Witness of claim C7: a schema requiring numeric `params.id` and a
`query.search`, invoked with `id="abc"` and no `search`, yields one 400
response whose errors array has exactly the two entries. -/
theorem validation_fail_closed_witness :
    reqBadIdNoSearch.validated = false ∧
    lookupAssoc schemaIdSearch (asciiLower reqBadIdNoSearch.method) =
      some idSearchSchema ∧
    collectValidationErrors idSearchSchema reqBadIdNoSearch =
      [("params", "Expected number, received string"), ("query", "Required")] ∧
    createValidationMiddleware schemaIdSearch reqBadIdNoSearch handlerBase [] =
      ([Event.validationRun],
        ⟨400, none, [("params", "Expected number, received string"),
          ("query", "Required")]⟩) := by
  refine ⟨rfl, rfl, by decide, ?_⟩
  have h := validation_fail_closed schemaIdSearch idSearchSchema
    reqBadIdNoSearch handlerBase [] rfl rfl (by decide)
  have he : collectValidationErrors idSearchSchema reqBadIdNoSearch =
      [("params", "Expected number, received string"), ("query", "Required")] := by
    decide
  rw [he] at h
  simpa using h
